import Mathlib

/-!
Verification development for the NEOS updater (`installer/updater/updater.cc`).

The C++ source is shallowly embedded: files, block devices and network
transfers become explicit values (byte contents are `List Nat`), the
streaming SHA-256 context becomes the list of bytes fed to it together with
an abstract digest function `h : List Nat → String` (OpenSSL's
`SHA256_Update` appends to the context, `SHA256_Final` applies the digest),
and the mutable `Updater` struct becomes an explicit state record threaded
through the translated member functions.
-/

namespace Updater2Proof

/-- One `fread` of at most `n` bytes from the unread remainder of a file. -/
def fread (rest : List Nat) (n : Nat) : List Nat :=
  rest.take n

/-- The chunk the `sha256_file` loop reads in one iteration:
`read_size = buf_size = 8192`, capped by the remaining `limit` when
`read_limit` is set. -/
def readChunk (readLimit : Bool) (limit : Nat) (rest : List Nat) : List Nat :=
  fread rest (if readLimit then min 8192 limit else 8192)

/-- The read loop of `sha256_file` (updater.cc lines 63-76): reads 8 KiB
chunks (capped by the remaining `limit` when `readLimit` is set),
accumulating the bytes fed to the SHA-256 context in `acc`; stops on a
zero-byte read, and, when limited, once `limit` bytes have been consumed.
Returns the bytes fed to the context. -/
def hashLoop (readLimit : Bool) (rest : List Nat) (limit : Nat) (acc : List Nat) :
    List Nat :=
  if hb : (readChunk readLimit limit rest).length = 0 then acc
  else
    if readLimit then
      if limit - (readChunk readLimit limit rest).length = 0 then
        acc ++ readChunk readLimit limit rest
      else
        hashLoop readLimit (rest.drop (readChunk readLimit limit rest).length)
          (limit - (readChunk readLimit limit rest).length)
          (acc ++ readChunk readLimit limit rest)
    else
      hashLoop readLimit (rest.drop (readChunk readLimit limit rest).length)
        limit (acc ++ readChunk readLimit limit rest)
termination_by rest.length
decreasing_by
  all_goals
    simp only [readChunk, fread, List.length_take, List.length_drop] at hb ⊢
    omega

/-- `sha256_file(fn, limit)` (updater.cc lines 53-84). The file is `none`
when `fopen` fails, in which case the empty string is returned; otherwise the
digest function `h` is applied to the bytes the loop fed to the context.
`limit = 0` means unlimited (`read_limit` is false). -/
def sha256_file (h : List Nat → String) (file : Option (List Nat)) (limit : Nat) :
    String :=
  match file with
  | none => ""
  | some content => h (hashLoop (limit != 0) content limit [])

/-- `has_no_battery` (updater.cc lines 128-136): false when the override
file `/data/params/d/dp_no_batt` does not open, else whether its content
reads (via `atoi`) as `1`. -/
def has_no_battery (fileOpens : Bool) (fileVal : Int) : Bool :=
  if fileOpens then decide (fileVal = 1) else false

/-- `check_battery` (updater.cc lines 138-142), with the reads of the
override file, the battery capacity and the instantaneous current made
explicit parameters. -/
def check_battery (noBattFileOpens : Bool) (noBattVal : Int)
    (bat_cap current_now : Int) : Bool :=
  if has_no_battery noBattFileOpens noBattVal then true
  else bat_cap > 35 || (current_now < 0 && bat_cap > 10)

/-- `check_space` (updater.cc lines 144-151): false when `statvfs` fails,
otherwise the `size_t` product `f_bsize * f_bavail` must strictly exceed
`2000000000`. -/
def check_space (statOk : Bool) (bsize bavail : Nat) : Bool :=
  if !statOk then false
  else decide ((bsize * bavail) % 2 ^ 64 > 2000000000)

/-! ### The Updater state, manifest and environment -/

/-- The `UpdateState` enum of the `Updater` struct (updater.cc lines 203-208). -/
inductive UpdState
  | CONFIRMATION
  | LOW_BATTERY
  | RUNNING
  | ERROR
deriving DecidableEq

def UPDATE_DIR : String := "/data/neoupdate"

def RECOVERY_DEV : String := "/dev/block/bootdevice/by-name/recovery"

/-- `util::base_name` (declared in `selfdrive/common/util.h`, outside this
translation unit): the path component after the last slash. -/
def base_name (s : String) : String :=
  String.mk (s.data.foldl (fun acc c => if c = '/' then [] else acc ++ [c]) [])

/-- The staging path `UPDATE_DIR "/" + util::base_name(url)` computed by
`Updater::download`. -/
def out_fn_of (url : String) : String :=
  UPDATE_DIR ++ "/" ++ base_name url

/-- The manifest fields `Updater::download_stage` extracts with json11's
defaulting accessors: a missing string field reads as `""`, a missing int
field as `0`. -/
structure ManifestRaw where
  ota_url : String
  ota_hash : String
  recovery_url : String
  recovery_hash : String
  recovery_len : Int
deriving DecidableEq

/-- The mutable members of the `Updater` struct that the download pipeline
touches, plus a ghost count `netCalls` of network operations performed
(`download_string` manifest fetches and `download_file` transfers).
`files` maps a path to the content of the file or device there (`none` when
opening it fails). -/
structure Updater where
  files : String → Option (List Nat)
  progress_text : String
  error_text : String
  state : UpdState
  recovery_len : Int
  recovery_hash : String
  recovery_fn : String
  ota_fn : String
  netCalls : Nat

/-- The read-only behavior of the outside world during one pipeline run:
the abstract SHA-256 digest, the network transport for `download_file`
(given the url and the existing file content, whether the transfer ends in
success and the resulting file content), the body `download_string` returns
for the manifest url, the json11 parse oracle, and the `check_space`
verdict. -/
structure Env where
  hashFn : List Nat → String
  netFetch : String → List Nat → Bool × List Nat
  manifestBody : String
  parse : String → Option ManifestRaw
  spaceOk : Bool

/-- `Updater::set_progress` (updater.cc lines 344-347). -/
def set_progress (st : Updater) (text : String) : Updater :=
  { st with progress_text := text }

/-- `Updater::set_error` (updater.cc lines 349-353). -/
def set_error (st : Updater) (text : String) : Updater :=
  { st with error_text := text, state := UpdState.ERROR }

/-- Pointwise update of the file map (a write or an `unlink`). -/
def fupdate (f : String → Option (List Nat)) (key : String)
    (v : Option (List Nat)) : String → Option (List Nat) :=
  fun s => if s = key then v else f s

/-- Value of a C `size_t` conversion of an `int`: reduction modulo `2 ^ 64`. -/
def asSizeT (i : Int) : Nat :=
  (i % (2 ^ 64 : Int)).toNat

/-- `Updater::download` (updater.cc lines 365-393). Returns the updated
state and the returned path (`""` on failure). -/
def download (env : Env) (st : Updater) (url hash name : String)
    (dry_run : Bool) : Updater × String :=
  let out_fn := out_fn_of url
  let fn_hash := sha256_file env.hashFn (st.files out_fn) 0
  if dry_run then
    (st, if hash ≠ fn_hash then "" else out_fn)
  else if hash ≠ fn_hash then
    -- start or resume downloading, since the hash does not match
    let st1 := set_progress st ("Downloading " ++ name ++ "...")
    let res := env.netFetch url ((st1.files out_fn).getD [])
    let st2 := { st1 with netCalls := st1.netCalls + 1,
                          files := fupdate st1.files out_fn (some res.2) }
    if !res.1 then
      let st3 := set_error st2 ("failed to download " ++ name)
      ({ st3 with files := fupdate st3.files out_fn none }, "")
    else
      let fn_hash2 := sha256_file env.hashFn (st2.files out_fn) 0
      let st3 := set_progress st2 ("Verifying " ++ name ++ "...")
      if fn_hash2 ≠ hash then
        let st4 := set_error st3 (name ++ " was corrupt")
        ({ st4 with files := fupdate st4.files out_fn none }, "")
      else (st3, out_fn)
  else
    -- existing file already matched; the final verification compares
    -- fn_hash with hash again and necessarily passes
    let st1 := set_progress st ("Verifying " ++ name ++ "...")
    (st1, out_fn)

/-- `Updater::download_stage` (updater.cc lines 395-467). Returns the
updated state and the boolean result. -/
def download_stage (env : Env) (st : Updater) (dry_run : Bool) :
    Updater × Bool :=
  if !env.spaceOk then
    (if dry_run then st else set_error st ("2GB of free space required to update"),
      false)
  else
    let st1 := set_progress st ("Finding latest version...")
    -- download_string(curl, manifest_url) is a network call
    let st2 := { st1 with netCalls := st1.netCalls + 1 }
    match env.parse env.manifestBody with
    | none => (set_error st2 ("failed to load update manifest"), false)
    | some m =>
      let st3 := { st2 with recovery_hash := m.recovery_hash,
                            recovery_len := m.recovery_len }
      if m.ota_url = "" ∨ m.ota_hash = "" then
        (set_error st3 ("invalid update manifest"), false)
      else
        let afterRecovery : Updater × Bool :=
          if m.recovery_url = "" ∨ m.recovery_hash = "" ∨ m.recovery_len = 0 then
            (set_progress st3 ("Skipping recovery flash..."), true)
          else
            let st4 := set_progress st3 ("Checking recovery...")
            let existing_recovery_hash :=
              sha256_file env.hashFn (st4.files RECOVERY_DEV) (asSizeT m.recovery_len)
            if existing_recovery_hash ≠ m.recovery_hash then
              let r := download env st4 m.recovery_url m.recovery_hash ("recovery") dry_run
              let st5 := { r.1 with recovery_fn := r.2 }
              if r.2 = "" then (st5, false) else (st5, true)
            else (st4, true)
        if !afterRecovery.2 then (afterRecovery.1, false)
        else
          let r2 := download env afterRecovery.1 m.ota_url m.ota_hash ("update") dry_run
          let st6 := { r2.1 with ota_fn := r2.2 }
          if r2.2 = "" then (st6, false) else (st6, true)

/-- The startup decision at the end of `Updater::ui_init` (updater.cc lines
259-264): run `download_stage(true)`; on success enter RUNNING and launch the
worker thread, else enter CONFIRMATION. The boolean records whether the
worker was launched. -/
def ui_init_decision (env : Env) (st : Updater) : Updater × Bool :=
  let r := download_stage env st true
  if r.2 then ({ r.1 with state := UpdState.RUNNING }, true)
  else ({ r.1 with state := UpdState.CONFIRMATION }, false)

/-- Button geometry fixed by `ui_init` (updater.cc lines 253-257). -/
def b_w : Int := 640

def balt_x : Int := 200

def b_y : Int := 720

def b_h : Int := 220

def b_x (fb_w : Int) : Int := fb_w - b_w - 200

/-- Outcome of one `Updater::ui_update` poll: the new state, whether the
worker thread was launched, whether the settings activity was started, and
whether `do_exit` was set. -/
structure UiUpdateResult where
  st : Updater
  launched : Bool
  startedSettings : Bool
  do_exit : Bool

/-- `Updater::ui_update` (updater.cc lines 720-742), with the touch poll
result and `is_settings_active()` as parameters. -/
def ui_update (fb_w : Int) (st : Updater) (touch_res touch_x touch_y : Int)
    (settingsActive : Bool) : UiUpdateResult :=
  if st.state = UpdState.ERROR ∨ st.state = UpdState.CONFIRMATION then
    if touch_res = 1 ∧ ¬settingsActive = true then
      let step1 : Updater × Bool :=
        if b_x fb_w ≤ touch_x ∧ touch_x < b_x fb_w + b_w
            ∧ b_y ≤ touch_y ∧ touch_y < b_y + b_h then
          if st.state = UpdState.CONFIRMATION then
            ({ st with state := UpdState.RUNNING }, true)
          else (st, false)
        else (st, false)
      if balt_x ≤ touch_x ∧ touch_x < balt_x + b_w
          ∧ b_y ≤ touch_y ∧ touch_y < b_y + b_h then
        if step1.1.state = UpdState.CONFIRMATION then
          ⟨step1.1, step1.2, true, false⟩
        else if step1.1.state = UpdState.ERROR then
          ⟨step1.1, step1.2, false, true⟩
        else ⟨step1.1, step1.2, false, false⟩
      else ⟨step1.1, step1.2, false, false⟩
    else ⟨st, false, false, false⟩
  else ⟨st, false, false, false⟩

/-! ### The flash section of run_stages -/

/-- One `fwrite` of `bytes` to the recovery device at position `pos`: the
device accepts at most `cap` bytes for this call (a short write stores only a
prefix). Returns the new device contents and the count written. -/
def fwriteDev (device : List Nat) (pos : Nat) (bytes : List Nat) (cap : Nat) :
    List Nat × Nat :=
  let written := min bytes.length cap
  (device.take pos ++ bytes.take written ++ device.drop (pos + written), written)

/-- The copy loop of the flash section of `Updater::run_stages` (updater.cc
lines 525-536): reads `buf_size = 4096` byte chunks from the staged recovery
file and writes each to the device; `wr i` is how many bytes the device
accepts on the i-th `fwrite`. Stops with the `set_error` text on a short
write, or returns the final device contents. -/
def flashLoop (wr : Nat → Nat) (i : Nat) (rest : List Nat) (device : List Nat)
    (pos : Nat) : Except String (List Nat) :=
  if hb : (fread rest 4096).length = 0 then .ok device
  else if (fread rest 4096).length ≠ (fwriteDev device pos (fread rest 4096) (wr i)).2 then
    .error ("failed to flash recovery: write failed")
  else
    flashLoop wr (i + 1) (rest.drop (fread rest 4096).length)
      (fwriteDev device pos (fread rest 4096) (wr i)).1
      (pos + (fwriteDev device pos (fread rest 4096) (wr i)).2)
termination_by rest.length
decreasing_by
  simp only [fread, List.length_take, List.length_drop] at hb ⊢
  omega

/-- Whether the write oracle `wr` makes some `fwrite` of the copy loop short,
starting from chunk `i` of `rest`. -/
def hasShortWrite (wr : Nat → Nat) (i : Nat) (rest : List Nat) : Bool :=
  if hb : (fread rest 4096).length = 0 then false
  else if wr i < (fread rest 4096).length then true
  else hasShortWrite wr (i + 1) (rest.drop (fread rest 4096).length)
termination_by rest.length
decreasing_by
  simp only [fread, List.length_take, List.length_drop] at hb ⊢
  omega

/-- The flash section of `Updater::run_stages` (updater.cc lines 505-550),
entered when `recovery_fn` is non-empty. `flashFile` is the content of the
staged recovery image (`none` when `fopen` fails), `devOpen` is whether the
recovery device opened, `device` its current contents, and `wr` the write
oracle. On falling through to the reboot step it returns the device
contents; otherwise the `set_error` text. `recovery_len` is the int member
the re-hash converts to `size_t`. -/
def flashRecovery (h : List Nat → String) (wr : Nat → Nat)
    (flashFile : Option (List Nat)) (devOpen : Bool) (device : List Nat)
    (recovery_hash : String) (recovery_len : Int) : Except String (List Nat) :=
  match flashFile with
  | none => .error ("failed to flash recovery")
  | some content =>
    if !devOpen then .error ("failed to flash recovery")
    else
      match flashLoop wr 0 content device 0 with
      | .error e => .error e
      | .ok d2 =>
        let new_recovery_hash := sha256_file h (some d2) (asSizeT recovery_len)
        if new_recovery_hash ≠ recovery_hash then
          .error ("recovery flash corrupted")
        else .ok d2

/-! ### The retry loop of download_file -/

/-- One attempt of the `download_file` retry loop: the curl result code
(`0 = CURLE_OK`, `22 = CURLE_HTTP_RETURNED_ERROR`), the HTTP response code,
and how many bytes `curl_easy_perform` appended to the output file. -/
structure Attempt where
  res : Nat
  code : Int
  appended : Nat

/-- Outcome of running the retry loop for `fuel` iterations: either the loop
ended (`ret`, number of attempts performed, final file length) or the fuel
ran out with the loop still going after `attempts` attempts. -/
inductive DfOut
  | done (ret : Bool) (attempts : Nat) (len : Nat)
  | spinning (attempts : Nat) (len : Nat)
deriving DecidableEq

/-- The retry loop of `Updater::download_file` (updater.cc lines 288-334).
`att n` describes the n-th `curl_easy_perform`; `len` is the current file
length (the resume offset read by `ftell`), `last_resume_from` and `tries`
the loop variables (initially `0` and `4`). Success on `CURLE_OK` or on
HTTP 416 with `CURLE_HTTP_RETURNED_ERROR`; a failure decrements `tries` only
when the resume offset equals the previous one, and the loop exits once
`tries` reaches zero that way. -/
def dfLoop (att : Nat → Attempt) : Nat → Nat → Nat → Int → Int → DfOut
  | 0, n, len, _, _ => .spinning n len
  | fuel + 1, n, len, last_resume_from, tries =>
    let resume_from : Int := (len : Int)
    let a := att n
    let len2 := len + a.appended
    if a.res = 0 then .done true (n + 1) len2
    else if a.res = 22 ∧ a.code = 416 then .done true (n + 1) len2
    else if resume_from = last_resume_from then
      if tries - 1 ≤ 0 then .done false (n + 1) len2
      else dfLoop att fuel (n + 1) len2 resume_from (tries - 1)
    else dfLoop att fuel (n + 1) len2 resume_from tries

/-- `Updater::download_file` (updater.cc lines 279-342), abstracted over the
transport behavior `att` and observed for `fuel` loop iterations; `initLen`
is the size of the existing output file after `fopen(out_fn, "ab")` and
`fseek(of, 0, SEEK_END)`. -/
def download_file (att : Nat → Attempt) (fuel : Nat) (initLen : Nat) : DfOut :=
  dfLoop att fuel 0 initLen 0 4

/-! ### Concrete worlds used by counterexamples and witnesses -/

/-- A state with the OTA artifact for url `"u"` staged with content `[7]`. -/
def st0 : Updater :=
  { files := fun p => if p = out_fn_of "u" then some [7] else none
  , progress_text := ""
  , error_text := ""
  , state := UpdState.CONFIRMATION
  , recovery_len := 0
  , recovery_hash := ""
  , recovery_fn := ""
  , ota_fn := ""
  , netCalls := 0 }

/-- A digest oracle under which content `[7]` hashes to `"h"`. -/
def hashFn0 : List Nat → String :=
  fun l => if l = [7] then "h" else "X"

/-- A world with a valid manifest (no recovery fields) and ample space. -/
def envC3 : Env :=
  { hashFn := hashFn0
  , netFetch := fun _ _ => (false, [])
  , manifestBody := "M"
  , parse := fun s => if s = "M" then some ⟨"u", "h", "", "", 0⟩ else none
  , spaceOk := true }

/-- The same world with the space check failing. -/
def envC3b : Env :=
  { envC3 with spaceOk := false }

/-- A world whose manifest has `recovery_url` present but `recovery_hash`
empty — violating the all-or-none recovery-field invariant. -/
def envC4 : Env :=
  { envC3 with parse := fun s => if s = "M" then some ⟨"u", "h", "r", "", 5⟩ else none }

/-- A world whose manifest body fails to parse. -/
def envC4b : Env :=
  { envC3 with parse := fun _ => none }

/-- The `Updater` state right after `download_stage` extracts the manifest
fields: progress text set, the manifest network fetch counted, and the
`recovery_hash` / `recovery_len` members assigned. -/
def stageSt3 (st : Updater) (m : ManifestRaw) : Updater :=
  { set_progress st ("Finding latest version...") with
      netCalls := (set_progress st ("Finding latest version...")).netCalls + 1,
      recovery_hash := m.recovery_hash,
      recovery_len := m.recovery_len }

/-- A world whose transport always fails, used by the C6 witness. -/
def envC6 : Env :=
  { hashFn := fun _ => "X"
  , netFetch := fun _ _ => (false, [])
  , manifestBody := ""
  , parse := fun _ => none
  , spaceOk := true }


/-! ### Lemmas about the hash read loop -/

theorem readChunk_eq_nil (readLimit : Bool) (limit : Nat) :
    readChunk readLimit limit [] = [] := by
  simp [readChunk, fread]

theorem readChunk_length (rl : Bool) (limit : Nat) (l : List Nat) :
    (readChunk rl limit l).length
      = min (if rl then min 8192 limit else 8192) l.length := by
  simp [readChunk, fread, List.length_take]

theorem readChunk_eq_take (rl : Bool) (limit : Nat) (l : List Nat) :
    readChunk rl limit l = l.take ((readChunk rl limit l).length) := by
  rw [readChunk_length, ← List.take_take, List.take_length]
  rfl

theorem hashLoop_nil (readLimit : Bool) (limit : Nat) (acc : List Nat) :
    hashLoop readLimit [] limit acc = acc := by
  unfold hashLoop
  simp [readChunk, fread]

/-- With `read_limit` off, the loop feeds the whole file to the context. -/
theorem hashLoop_false_eq (n : Nat) : ∀ (rest : List Nat), rest.length ≤ n →
    ∀ (limit : Nat) (acc : List Nat), hashLoop false rest limit acc = acc ++ rest := by
  induction n with
  | zero =>
      intro rest hr limit acc
      have : rest = [] := by
        cases rest with
        | nil => rfl
        | cons a t => simp at hr
      subst this
      simp [hashLoop_nil]
  | succ n ih =>
      intro rest hr limit acc
      cases rest with
      | nil => simp [hashLoop_nil]
      | cons a t =>
          rw [hashLoop]
          obtain ⟨k, hkval, hklen, hkmin⟩ :
              ∃ k, readChunk false limit (a :: t) = (a :: t).take k
                ∧ (readChunk false limit (a :: t)).length = k
                ∧ k = min 8192 (a :: t).length :=
            ⟨(readChunk false limit (a :: t)).length,
              readChunk_eq_take false limit (a :: t), rfl, by
                rw [readChunk_length]; simp⟩
          rw [hklen]
          have hne : ¬ k = 0 := by
            simp only [List.length_cons] at hkmin; omega
          rw [dif_neg hne]
          simp only [Bool.false_eq_true, if_false]
          rw [hkval]
          rw [ih ((a :: t).drop k)
            (by
              simp only [List.length_drop, List.length_cons]
              simp only [List.length_cons] at hr hkmin
              omega) limit]
          rw [List.append_assoc, List.take_append_drop]

/-- With `read_limit` on and a positive limit, the loop feeds exactly the
first `limit` bytes of the file (fewer if the file is shorter). -/
theorem hashLoop_true_eq (n : Nat) : ∀ (rest : List Nat), rest.length ≤ n →
    ∀ (limit : Nat), 1 ≤ limit →
    ∀ (acc : List Nat), hashLoop true rest limit acc = acc ++ rest.take limit := by
  induction n with
  | zero =>
      intro rest hr limit hl acc
      have : rest = [] := by
        cases rest with
        | nil => rfl
        | cons a t => simp at hr
      subst this
      simp [hashLoop_nil]
  | succ n ih =>
      intro rest hr limit hl acc
      cases rest with
      | nil => simp [hashLoop_nil]
      | cons a t =>
          rw [hashLoop]
          obtain ⟨k, hkval, hklen, hkmin⟩ :
              ∃ k, readChunk true limit (a :: t) = (a :: t).take k
                ∧ (readChunk true limit (a :: t)).length = k
                ∧ k = min (min 8192 limit) (a :: t).length :=
            ⟨(readChunk true limit (a :: t)).length,
              readChunk_eq_take true limit (a :: t), rfl, by
                rw [readChunk_length]; simp⟩
          rw [hklen]
          have hne : ¬ k = 0 := by
            simp only [List.length_cons] at hkmin; omega
          rw [dif_neg hne]
          simp only [if_true]
          rw [hkval]
          by_cases hstop : limit - k = 0
          · rw [if_pos hstop]
            have hk : k = limit := by
              simp only [List.length_cons] at hkmin; omega
            rw [hk]
          · rw [if_neg hstop]
            rw [ih ((a :: t).drop k)
              (by
                simp only [List.length_drop, List.length_cons]
                simp only [List.length_cons] at hr hkmin
                omega)
              (limit - k) (by omega)]
            rw [List.append_assoc, ← List.take_add]
            have hsum : k + (limit - k) = limit := by omega
            rw [hsum]

/-- Unlimited hashing digests the whole content. -/
theorem sha256_file_some_zero (h : List Nat → String) (c : List Nat) :
    sha256_file h (some c) 0 = h c := by
  show h (hashLoop ((0 : Nat) != 0) c 0 []) = h c
  have h0 : ((0 : Nat) != 0) = false := by simp
  rw [h0, hashLoop_false_eq c.length c (le_refl _) 0 []]
  simp

/-- Limited hashing digests the first `L` bytes of the content. -/
theorem sha256_file_some_pos (h : List Nat → String) (c : List Nat) (L : Nat)
    (hL : 0 < L) : sha256_file h (some c) L = h (c.take L) := by
  show h (hashLoop (L != 0) c L []) = h (c.take L)
  have hLne : (L != 0) = true := by simp [bne_iff_ne]; omega
  rw [hLne, hashLoop_true_eq c.length c (le_refl _) L (by omega) []]
  simp

theorem sha256_file_none (h : List Nat → String) (L : Nat) :
    sha256_file h none L = "" := rfl

/-- C5: with byte limit `L > 0`, `sha256_file` feeds at most `L` bytes to the
hash and returns the same digest as an unlimited hash of a file holding
exactly the first `min L (length)` bytes of the input; an unopenable target
yields the empty string. -/
theorem sha256_file_limit_correct (h : List Nat → String) (content : List Nat)
    (L : Nat) (hL : 0 < L) :
    sha256_file h (some content) L = sha256_file h (some (content.take L)) 0
    ∧ (hashLoop (L != 0) content L []).length ≤ L
    ∧ sha256_file h none L = "" := by
  have hLne : (L != 0) = true := by
    simp [bne_iff_ne]; omega
  have hfeed : hashLoop (L != 0) content L [] = content.take L := by
    rw [hLne]
    have := hashLoop_true_eq content.length content (le_refl _) L (by omega) []
    simpa using this
  refine ⟨?_, ?_, rfl⟩
  · show h (hashLoop (L != 0) content L []) = h (hashLoop (0 != 0) (content.take L) 0 [])
    rw [hfeed]
    have h0 : ((0 : Nat) != 0) = false := by simp
    rw [h0]
    rw [hashLoop_false_eq (content.take L).length (content.take L) (le_refl _) 0 []]
    simp
  · rw [hfeed]
    simp only [List.length_take]
    omega

/-! ### Shared helper lemmas -/

theorem download_dry_eq (env : Env) (st : Updater) (url hash name : String) :
    download env st url hash name true
      = (st, if hash ≠ sha256_file env.hashFn (st.files (out_fn_of url)) 0
             then "" else out_fn_of url) := rfl

theorem out_fn_of_ne_empty (url : String) : out_fn_of url ≠ "" := by
  intro hcontra
  have hl := congrArg String.length hcontra
  rw [out_fn_of, String.length_append, String.length_append] at hl
  have h1 : UPDATE_DIR.length = 15 := rfl
  have h2 : ("/" : String).length = 1 := rfl
  have h3 : ("" : String).length = 0 := rfl
  omega

/-! ### Claim theorems: preflight guards -/

/-- C7: `check_battery` is true when the no-battery override holds, else
true exactly when the percentage exceeds 35, or the current is negative and
the percentage exceeds 10; in particular 20% while not discharging negative
is false, 20% with negative current is true, and 40% is always true. -/
theorem check_battery_spec :
    (∀ (o : Bool) (v p c : Int), has_no_battery o v = true →
      check_battery o v p c = true)
    ∧ (∀ (o : Bool) (v p c : Int), has_no_battery o v = false →
      check_battery o v p c
        = (decide (p > 35) || (decide (c < 0) && decide (p > 10))))
    ∧ (∀ (o : Bool) (v c : Int), has_no_battery o v = false → 0 ≤ c →
      check_battery o v 20 c = false)
    ∧ (∀ (o : Bool) (v c : Int), has_no_battery o v = false → c < 0 →
      check_battery o v 20 c = true)
    ∧ (∀ (o : Bool) (v c : Int), has_no_battery o v = false →
      check_battery o v 40 c = true) := by
  refine ⟨?_, ?_, ?_, ?_, ?_⟩
  · intro o v p c hov
    simp [check_battery, hov]
  · intro o v p c hov
    simp [check_battery, hov]
  · intro o v c hov hc
    simp [check_battery, hov]
    omega
  · intro o v c hov hc
    simp [check_battery, hov]
    omega
  · intro o v c hov
    simp [check_battery, hov]

theorem check_battery_spec_witness :
    check_battery true 1 5 7 = true
    ∧ check_battery false 0 20 0 = false
    ∧ check_battery false 0 20 (-1) = true
    ∧ check_battery false 0 40 9 = true :=
  ⟨check_battery_spec.1 true 1 5 7 (by decide),
   check_battery_spec.2.2.1 false 0 0 (by decide) (by decide),
   check_battery_spec.2.2.2.1 false 0 (-1) (by decide) (by decide),
   check_battery_spec.2.2.2.2 false 0 9 (by decide)⟩

/-- C8: `check_space` (with `statvfs` succeeding) is true exactly when the
available byte count `f_bsize * f_bavail` strictly exceeds the 2 GB
threshold `2000000000`; exactly `2000000000` available bytes yields false and
`2000000001` yields true. -/
theorem check_space_spec :
    (∀ b a : Nat, b * a < 2 ^ 64 →
      (check_space true b a = true ↔ b * a > 2000000000))
    ∧ check_space true 1 2000000000 = false
    ∧ check_space true 1 2000000001 = true
    ∧ (∀ b a : Nat, check_space false b a = false) := by
  refine ⟨?_, by decide, by decide, fun b a => rfl⟩
  intro b a hlt
  have hlt2 : b * a < 18446744073709551616 := by
    have h64 : (2 : Nat) ^ 64 = 18446744073709551616 := by norm_num
    omega
  simp [check_space, Nat.mod_eq_of_lt hlt2]

theorem check_space_spec_witness :
    (1 * 2000000001 < 2 ^ 64)
    ∧ (check_space true 1 2000000001 = true ↔ 1 * 2000000001 > 2000000000) :=
  ⟨by norm_num, check_space_spec.1 1 2000000001 (by norm_num)⟩

/-! ### Claim theorems: download -/

/-- C10: a dry-run `download` leaves the whole `Updater` state unchanged —
no unlink even on hash mismatch, no transfer, no error or state mutation —
and returns the staged path exactly when the existing file's hash matches
the expected one, else the empty string. -/
theorem download_dry_run_frame (env : Env) (st : Updater)
    (url hash name : String) :
    download env st url hash name true
      = (st, if hash ≠ sha256_file env.hashFn (st.files (out_fn_of url)) 0
             then "" else out_fn_of url) := rfl

/-- C6: in a non-dry-run `download` whose pre-existing file does not match,
a failed transfer unlinks the file and reports exactly
`failed to download <name>`, and a post-download hash mismatch unlinks the
file and reports exactly `<name> was corrupt`; both return the empty
string. -/
theorem download_error_reporting (env : Env) (st : Updater)
    (url hash name : String)
    (hmiss : hash ≠ sha256_file env.hashFn (st.files (out_fn_of url)) 0) :
    ((env.netFetch url ((st.files (out_fn_of url)).getD [])).1 = false →
      (download env st url hash name false).2 = ""
      ∧ (download env st url hash name false).1.error_text
          = "failed to download " ++ name
      ∧ (download env st url hash name false).1.state = UpdState.ERROR
      ∧ (download env st url hash name false).1.files (out_fn_of url) = none)
    ∧ ((env.netFetch url ((st.files (out_fn_of url)).getD [])).1 = true →
       env.hashFn (env.netFetch url ((st.files (out_fn_of url)).getD [])).2
          ≠ hash →
      (download env st url hash name false).2 = ""
      ∧ (download env st url hash name false).1.error_text
          = name ++ " was corrupt"
      ∧ (download env st url hash name false).1.state = UpdState.ERROR
      ∧ (download env st url hash name false).1.files (out_fn_of url) = none) := by
  constructor
  · intro hfail
    simp only [download, Bool.false_eq_true, if_false]
    rw [if_pos hmiss]
    simp [set_progress, set_error, fupdate, hfail]
  · intro hok hbad
    simp only [download, Bool.false_eq_true, if_false]
    rw [if_pos hmiss]
    simp [set_progress, set_error, fupdate, hok, sha256_file_some_zero, hbad]

/-- C9: at startup the coordinator enters RUNNING with the worker launched
exactly when the dry-run `download_stage` succeeds, else it enters
CONFIRMATION with no worker; and `ui_update` launches a worker only from
CONFIRMATION (on a confirm touch), never from any other state. -/
theorem ui_init_fast_path :
    (∀ (env : Env) (st : Updater),
      ((download_stage env st true).2 = true →
        (ui_init_decision env st).1.state = UpdState.RUNNING
        ∧ (ui_init_decision env st).2 = true)
      ∧ ((download_stage env st true).2 = false →
        (ui_init_decision env st).1.state = UpdState.CONFIRMATION
        ∧ (ui_init_decision env st).2 = false))
    ∧ (∀ (fb_w : Int) (st : Updater) (tres tx ty : Int) (sa : Bool),
        (ui_update fb_w st tres tx ty sa).launched = true →
        st.state = UpdState.CONFIRMATION) := by
  constructor
  · intro env st
    constructor
    · intro hsucc
      simp [ui_init_decision, hsucc]
    · intro hfail
      simp [ui_init_decision, hfail]
  · intro fb_w st tres tx ty sa h
    by_cases hc : st.state = UpdState.CONFIRMATION
    · exact hc
    · exfalso
      have hfalse : (ui_update fb_w st tres tx ty sa).launched = false := by
        simp only [ui_update]
        split
        · split
          · simp [hc, apply_ite UiUpdateResult.launched]
          · rfl
        · rfl
      rw [hfalse] at h
      exact Bool.false_ne_true h

theorem ui_init_fast_path_witness :
    (ui_init_decision envC3b st0).1.state = UpdState.CONFIRMATION
    ∧ (ui_init_decision envC3b st0).2 = false :=
  (ui_init_fast_path.1 envC3b st0).2 (by simp [download_stage, envC3b, envC3])

/-! ### Lemmas about the download_file retry loop -/

theorem dfLoop_fail_step (att : Nat → Attempt) (n : Nat)
    (hres : ¬(att n).res = 0) (h416 : ¬((att n).res = 22 ∧ (att n).code = 416))
    (fuel len : Nat) (last tries : Int) :
    dfLoop att (fuel + 1) n len last tries
      = if (len : Int) = last then
          (if tries - 1 ≤ 0 then DfOut.done false (n + 1) (len + (att n).appended)
           else dfLoop att fuel (n + 1) (len + (att n).appended) (len : Int) (tries - 1))
        else dfLoop att fuel (n + 1) (len + (att n).appended) (len : Int) tries := by
  simp only [dfLoop]
  rw [if_neg hres, if_neg h416]

/-- A failing transport that never appends, once the loop's last-offset
sentinel equals the current offset, exhausts its budget of `k` further
attempts and ends in failure. -/
theorem dfLoop_nonprogress (att : Nat → Attempt)
    (hfail : ∀ n, ¬(att n).res = 0 ∧ ¬((att n).res = 22 ∧ (att n).code = 416))
    (happ0 : ∀ n, (att n).appended = 0) :
    ∀ k : Nat, 1 ≤ k → ∀ (fuel n len : Nat),
      dfLoop att (fuel + k) n len (len : Int) (k : Int)
        = DfOut.done false (n + k) len := by
  intro k
  induction k with
  | zero => intro hk; omega
  | succ k ih =>
      intro _ fuel n len
      rw [show fuel + (k + 1) = (fuel + k) + 1 by omega]
      rw [dfLoop_fail_step att n (hfail n).1 (hfail n).2]
      rw [if_pos rfl, happ0 n]
      simp only [Nat.add_zero]
      cases k with
      | zero =>
          rw [if_pos (by norm_num)]
      | succ k2 =>
          rw [if_neg (by push_cast; omega)]
          have h2 : ((k2 + 1 + 1 : Nat) : Int) - 1 = ((k2 + 1 : Nat) : Int) := by
            push_cast; omega
          rw [h2, ih (by omega) fuel (n + 1) len]
          congr 1
          omega

/-- A failing transport that always appends keeps the loop running for as
long as there is fuel, as long as the offset/budget invariant holds. -/
theorem dfLoop_spin (att : Nat → Attempt)
    (hfail : ∀ n, ¬(att n).res = 0 ∧ ¬((att n).res = 22 ∧ (att n).code = 416))
    (happ : ∀ n, 0 < (att n).appended) :
    ∀ (fuel n len : Nat) (last tries : Int),
      (last < (len : Int) ∨ (last = (len : Int) ∧ 2 ≤ tries)) →
      ∃ l, dfLoop att fuel n len last tries = DfOut.spinning (n + fuel) l := by
  intro fuel
  induction fuel with
  | zero =>
      intro n len last tries hinv
      exact ⟨len, by simp [dfLoop]⟩
  | succ fuel ih =>
      intro n len last tries hinv
      rw [dfLoop_fail_step att n (hfail n).1 (hfail n).2]
      rcases hinv with hlt | ⟨heq, htr⟩
      · rw [if_neg (by omega)]
        obtain ⟨l, hl⟩ := ih (n + 1) (len + (att n).appended) (len : Int) tries
          (Or.inl (by have := happ n; omega))
        exact ⟨l, by rw [hl]; congr 1; omega⟩
      · rw [if_pos heq.symm]
        rw [if_neg (by omega)]
        obtain ⟨l, hl⟩ := ih (n + 1) (len + (att n).appended) (len : Int) (tries - 1)
          (Or.inl (by have := happ n; omega))
        exact ⟨l, by rw [hl]; congr 1; omega⟩

/-- C2 counterexample: a transport that fails every attempt without ever
advancing the resume offset, against a destination file that already holds
one byte, is given 5 attempts, not 4: the first failure is compared against
the initial last-offset sentinel 0 and counts as progressing. -/
theorem download_file_budget_ce :
    download_file (fun _ => ⟨7, 0, 0⟩) 10 1 = DfOut.done false 5 1 := by decide

/-- C2 amended: with a transport failing every attempt and never advancing
the offset, exactly 4 attempts occur when the destination file starts empty,
but 5 attempts when it starts non-empty (the first failure counts as
progressing against the initial last-offset sentinel 0); a failing transport
that always advances the offset never consumes the budget and is retried for
as long as the loop runs. -/
theorem download_file_retry_budget (att : Nat → Attempt)
    (hfail : ∀ n, ¬(att n).res = 0 ∧ ¬((att n).res = 22 ∧ (att n).code = 416)) :
    ((∀ n, (att n).appended = 0) →
      (∀ fuel, download_file att (fuel + 4) 0 = DfOut.done false 4 0)
      ∧ (∀ fuel initLen, 0 < initLen →
          download_file att (fuel + 5) initLen = DfOut.done false 5 initLen))
    ∧ ((∀ n, 0 < (att n).appended) →
        ∀ fuel initLen, ∃ l, download_file att fuel initLen
          = DfOut.spinning fuel l) := by
  constructor
  · intro happ0
    constructor
    · intro fuel
      have h := dfLoop_nonprogress att hfail happ0 4 (by omega) fuel 0 0
      simpa [download_file] using h
    · intro fuel initLen hpos
      rw [show fuel + 5 = (fuel + 4) + 1 by omega]
      rw [download_file]
      rw [dfLoop_fail_step att 0 (hfail 0).1 (hfail 0).2]
      rw [if_neg (by omega)]
      rw [happ0 0, Nat.add_zero]
      have h := dfLoop_nonprogress att hfail happ0 4 (by omega) fuel 1 initLen
      simpa using h
  · intro happ fuel initLen
    rcases Nat.eq_zero_or_pos initLen with h0 | hpos
    · subst h0
      obtain ⟨l, hl⟩ := dfLoop_spin att hfail happ fuel 0 0 0 4
        (Or.inr ⟨by norm_num, by norm_num⟩)
      exact ⟨l, by simpa [download_file] using hl⟩
    · obtain ⟨l, hl⟩ := dfLoop_spin att hfail happ fuel 0 initLen 0 4
        (Or.inl (by omega))
      exact ⟨l, by simpa [download_file] using hl⟩

theorem download_file_retry_budget_witness :
    download_file (fun _ => ⟨7, 0, 0⟩) 9 0 = DfOut.done false 4 0
    ∧ ∃ l, download_file (fun _ => ⟨7, 0, 1⟩) 6 3 = DfOut.spinning 6 l :=
  ⟨by
    have h := ((download_file_retry_budget (fun _ => ⟨7, 0, 0⟩)
      (fun n => ⟨by simp, by simp⟩)).1 (fun n => rfl)).1 5
    simpa using h,
   (download_file_retry_budget (fun _ => ⟨7, 0, 1⟩)
      (fun n => ⟨by simp, by simp⟩)).2 (fun n => by simp) 6 3⟩

/-! ### Lemmas about the flash copy loop -/

/-- A short write makes the copy loop stop with the write-failed error. -/
theorem flashLoop_short (wr : Nat → Nat) :
    ∀ (n : Nat) (rest : List Nat), rest.length ≤ n →
    ∀ (i : Nat) (device : List Nat) (pos : Nat),
      hasShortWrite wr i rest = true →
      flashLoop wr i rest device pos
        = .error ("failed to flash recovery: write failed") := by
  intro n
  induction n with
  | zero =>
      intro rest hr i device pos h
      have hnil : rest = [] := by
        cases rest with
        | nil => rfl
        | cons a t => simp at hr
      subst hnil
      rw [hasShortWrite, dif_pos (by simp [fread])] at h
      exact absurd h (by simp)
  | succ n ih =>
      intro rest hr i device pos h
      rw [hasShortWrite] at h
      rw [flashLoop]
      by_cases hz : (fread rest 4096).length = 0
      · rw [dif_pos hz] at h
        exact absurd h (by simp)
      · rw [dif_neg hz] at h
        rw [dif_neg hz]
        by_cases hshort : wr i < (fread rest 4096).length
        · rw [if_pos (by simp [fwriteDev]; omega)]
        · rw [if_neg hshort] at h
          rw [if_neg (by simp [fwriteDev]; omega)]
          exact ih (rest.drop (fread rest 4096).length)
            (by
              simp only [List.length_drop, fread, List.length_take]
              simp only [fread, List.length_take] at hz
              omega)
            (i + 1) _ _ h

/-- Without a short write the copy loop runs to completion. -/
theorem flashLoop_ok (wr : Nat → Nat) :
    ∀ (n : Nat) (rest : List Nat), rest.length ≤ n →
    ∀ (i : Nat) (device : List Nat) (pos : Nat),
      hasShortWrite wr i rest = false →
      ∃ d2, flashLoop wr i rest device pos = .ok d2 := by
  intro n
  induction n with
  | zero =>
      intro rest hr i device pos _
      have hnil : rest = [] := by
        cases rest with
        | nil => rfl
        | cons a t => simp at hr
      subst hnil
      exact ⟨device, by rw [flashLoop, dif_pos (by simp [fread])]⟩
  | succ n ih =>
      intro rest hr i device pos h
      rw [hasShortWrite] at h
      rw [flashLoop]
      by_cases hz : (fread rest 4096).length = 0
      · rw [dif_pos hz]
        exact ⟨device, rfl⟩
      · rw [dif_neg hz] at h
        rw [dif_neg hz]
        by_cases hshort : wr i < (fread rest 4096).length
        · rw [if_pos hshort] at h
          exact absurd h (by simp)
        · rw [if_neg hshort] at h
          rw [if_neg (by simp [fwriteDev]; omega)]
          exact ih (rest.drop (fread rest 4096).length)
            (by
              simp only [List.length_drop, fread, List.length_take]
              simp only [fread, List.length_take] at hz
              omega)
            (i + 1) _ _ h

/-- A device accepting every full chunk never produces a short write. -/
theorem hasShortWrite_of_full (wr : Nat → Nat) (hw : ∀ i, 4096 ≤ wr i) :
    ∀ (n : Nat) (rest : List Nat), rest.length ≤ n → ∀ i,
      hasShortWrite wr i rest = false := by
  intro n
  induction n with
  | zero =>
      intro rest hr i
      have hnil : rest = [] := by
        cases rest with
        | nil => rfl
        | cons a t => simp at hr
      subst hnil
      rw [hasShortWrite, dif_pos (by simp [fread])]
  | succ n ih =>
      intro rest hr i
      rw [hasShortWrite]
      by_cases hz : (fread rest 4096).length = 0
      · rw [dif_pos hz]
      · rw [dif_neg hz]
        rw [if_neg (by
          have := hw i
          simp only [fread, List.length_take]
          omega)]
        exact ih (rest.drop (fread rest 4096).length)
          (by
            simp only [List.length_drop, fread, List.length_take]
            simp only [fread, List.length_take] at hz
            omega)
          (i + 1)

/-- Reduction of the flash section once the copy loop outcome is known. -/
theorem flashRecovery_of_loop_error (h : List Nat → String) (wr : Nat → Nat)
    (content device : List Nat) (rhash : String) (rlen : Int) (e : String)
    (hflash : flashLoop wr 0 content device 0 = Except.error e) :
    flashRecovery h wr (some content) true device rhash rlen
      = Except.error e := by
  simp only [flashRecovery, Bool.not_true, Bool.false_eq_true, if_false]
  rw [hflash]

theorem flashRecovery_of_loop_ok (h : List Nat → String) (wr : Nat → Nat)
    (content device : List Nat) (rhash : String) (rlen : Int) (d3 : List Nat)
    (hflash : flashLoop wr 0 content device 0 = Except.ok d3) :
    flashRecovery h wr (some content) true device rhash rlen
      = if sha256_file h (some d3) (asSizeT rlen) ≠ rhash then
          Except.error ("recovery flash corrupted")
        else Except.ok d3 := by
  simp only [flashRecovery, Bool.not_true, Bool.false_eq_true, if_false]
  rw [hflash]

/-- C1: the flash section streams the staged recovery file to the device in
4 KiB chunks; it reports success only when the post-copy re-hash of the
device, up to `recovery_len` bytes, equals `recovery_hash` exactly; any
chunk whose written size differs from its read size makes it fail
immediately with the reported write-failed error; a completed copy alone
yields either success with a matching re-hash or the reported corruption
error, never plain success; an unopenable staged file is a reported
failure. -/
theorem flashRecovery_flash_correct (h : List Nat → String) (wr : Nat → Nat)
    (content device : List Nat) (rhash : String) (rlen : Int) :
    (∀ d2, flashRecovery h wr (some content) true device rhash rlen
        = Except.ok d2 →
      sha256_file h (some d2) (asSizeT rlen) = rhash)
    ∧ (hasShortWrite wr 0 content = true →
      flashRecovery h wr (some content) true device rhash rlen
        = Except.error ("failed to flash recovery: write failed"))
    ∧ (hasShortWrite wr 0 content = false →
      (∃ d2, flashRecovery h wr (some content) true device rhash rlen
          = Except.ok d2
        ∧ sha256_file h (some d2) (asSizeT rlen) = rhash)
      ∨ flashRecovery h wr (some content) true device rhash rlen
          = Except.error ("recovery flash corrupted"))
    ∧ flashRecovery h wr none true device rhash rlen
        = Except.error ("failed to flash recovery") := by
  refine ⟨?_, ?_, ?_, rfl⟩
  · intro d2 hok
    rcases hflash : flashLoop wr 0 content device 0 with e | d3
    · rw [flashRecovery_of_loop_error h wr content device rhash rlen e hflash] at hok
      exact absurd hok (by simp)
    · rw [flashRecovery_of_loop_ok h wr content device rhash rlen d3 hflash] at hok
      by_cases hmatch : sha256_file h (some d3) (asSizeT rlen) ≠ rhash
      · rw [if_pos hmatch] at hok
        exact absurd hok (by simp)
      · rw [if_neg hmatch] at hok
        have hd : d3 = d2 := by
          injection hok
        rw [← hd]
        exact not_not.mp hmatch
  · intro hsw
    exact flashRecovery_of_loop_error h wr content device rhash rlen _
      (flashLoop_short wr content.length content (le_refl _) 0 device 0 hsw)
  · intro hsw
    obtain ⟨d2, hd2⟩ := flashLoop_ok wr content.length content (le_refl _) 0 device 0 hsw
    by_cases hmatch : sha256_file h (some d2) (asSizeT rlen) = rhash
    · refine Or.inl ⟨d2, ?_, hmatch⟩
      rw [flashRecovery_of_loop_ok h wr content device rhash rlen d2 hd2]
      rw [if_neg (by simp [hmatch])]
    · refine Or.inr ?_
      rw [flashRecovery_of_loop_ok h wr content device rhash rlen d2 hd2]
      rw [if_pos hmatch]

theorem flashRecovery_flash_correct_witness :
    (∃ d2, flashRecovery (fun _ => "H") (fun _ => 4096) (some [1]) true [] "H" 1
        = Except.ok d2
      ∧ sha256_file (fun _ => "H") (some d2) (asSizeT 1) = "H")
    ∨ flashRecovery (fun _ => "H") (fun _ => 4096) (some [1]) true [] "H" 1
        = Except.error ("recovery flash corrupted") :=
  (flashRecovery_flash_correct (fun _ => "H") (fun _ => 4096) [1] [] "H" 1).2.2.1
    (hasShortWrite_of_full (fun _ => 4096) (fun i => le_refl 4096) 1 [1] (by simp) 0)

/-! ### Claim theorems: manifest validation -/

/-- C4 counterexample: a fetched manifest violating the all-or-none
recovery-field invariant (`recovery_url` present, `recovery_hash` empty,
`recovery_len = 5`) does not fail `download_stage`: with the OTA artifact
staged, the run returns true with no error recorded. -/
theorem manifest_invariant_ce :
    envC4.parse envC4.manifestBody = some ⟨"u", "h", "r", "", 5⟩
    ∧ (download_stage envC4 st0 true).2 = true
    ∧ (download_stage envC4 st0 true).1.state ≠ UpdState.ERROR
    ∧ (download_stage envC4 st0 true).1.error_text = "" := by
  refine ⟨by simp [envC4, envC3], ?_, ?_, ?_⟩ <;>
    simp [download_stage, download, envC4, envC3, st0, hashFn0,
      set_progress, set_error, fupdate, sha256_file_some_zero,
      out_fn_of_ne_empty]

/-- C4 amended: with sufficient space, an unparsable manifest body (which
includes an empty or transport-failed body) fails the run with
`failed to load update manifest`, and empty `ota_url`/`ota_hash` fail it
with `invalid update manifest`, in both cases with state ERROR; but
recovery fields that are not all present (empty url, empty hash, or zero
length) are not an error: the recovery step is skipped and the run
continues with the OTA stage alone. -/
theorem download_stage_manifest_validation (env : Env) (st : Updater)
    (dry_run : Bool) (hspace : env.spaceOk = true) :
    (env.parse env.manifestBody = none →
      (download_stage env st dry_run).2 = false
      ∧ (download_stage env st dry_run).1.error_text
          = "failed to load update manifest"
      ∧ (download_stage env st dry_run).1.state = UpdState.ERROR)
    ∧ (∀ m, env.parse env.manifestBody = some m →
        (m.ota_url = "" ∨ m.ota_hash = "") →
      (download_stage env st dry_run).2 = false
      ∧ (download_stage env st dry_run).1.error_text = "invalid update manifest"
      ∧ (download_stage env st dry_run).1.state = UpdState.ERROR)
    ∧ (∀ m, env.parse env.manifestBody = some m →
        ¬(m.ota_url = "" ∨ m.ota_hash = "") →
        (m.recovery_url = "" ∨ m.recovery_hash = "" ∨ m.recovery_len = 0) →
      download_stage env st dry_run
        = (let r2 := download env
             (set_progress (stageSt3 st m) ("Skipping recovery flash..."))
             m.ota_url m.ota_hash ("update") dry_run;
           ({ r2.1 with ota_fn := r2.2 }, if r2.2 = "" then false else true))) := by
  refine ⟨?_, ?_, ?_⟩
  · intro hnone
    refine ⟨?_, ?_, ?_⟩ <;>
      (rw [download_stage, hspace, hnone]; simp [set_error, set_progress])
  · intro m hm hbad
    refine ⟨?_, ?_, ?_⟩
    all_goals rw [download_stage, hspace, hm]
    all_goals simp only [Bool.not_true, Bool.false_eq_true, if_false]
    all_goals rw [if_pos hbad]
    all_goals simp [set_error, set_progress]
  · intro m hm hok hrec
    rw [download_stage, hspace, hm]
    simp only [Bool.not_true, Bool.false_eq_true, if_false]
    rw [if_neg hok, if_pos hrec]
    simp only [stageSt3, set_progress]
    simp
    split <;> (rename_i hc; simp [hc])

/-! ### Claim theorems: dry run of download_stage -/

/-- C3 counterexample: with both required artifacts already staged and
verified, the dry run succeeds but still performs one network call (the
manifest fetch via `download_string`); and with the artifacts staged but the
space check failing, the dry run returns false — so neither the
no-network-calls part nor the unconditional iff of the claim holds. -/
theorem download_stage_dry_network_ce :
    (download_stage envC3 st0 true).2 = true
    ∧ st0.netCalls = 0
    ∧ (download_stage envC3 st0 true).1.netCalls = 1
    ∧ (download_stage envC3b st0 true).2 = false := by
  refine ⟨?_, rfl, ?_, ?_⟩ <;>
    simp [download_stage, download, envC3, envC3b, st0, hashFn0,
      set_progress, set_error, fupdate, sha256_file_some_zero, out_fn_of_ne_empty]

/-- C3 amended: given sufficient space and a fetched manifest with non-empty
`ota_url`/`ota_hash`, the dry run succeeds iff the OTA artifact is staged
with a matching hash and, when the manifest carries full recovery fields and
the live recovery device hash differs, the recovery artifact is staged with
a matching hash; the dry run performs exactly one network call — the
manifest fetch — and never starts an artifact transfer. -/
theorem download_stage_dry_characterization (env : Env) (st : Updater)
    (m : ManifestRaw) (hspace : env.spaceOk = true)
    (hparse : env.parse env.manifestBody = some m)
    (hota : ¬(m.ota_url = "" ∨ m.ota_hash = "")) :
    ((download_stage env st true).2 = true ↔
      ((¬(m.recovery_url = "" ∨ m.recovery_hash = "" ∨ m.recovery_len = 0)
          ∧ sha256_file env.hashFn (st.files RECOVERY_DEV) (asSizeT m.recovery_len)
              ≠ m.recovery_hash) →
        m.recovery_hash = sha256_file env.hashFn (st.files (out_fn_of m.recovery_url)) 0)
      ∧ m.ota_hash = sha256_file env.hashFn (st.files (out_fn_of m.ota_url)) 0)
    ∧ (download_stage env st true).1.netCalls = st.netCalls + 1 := by
  rw [download_stage, hspace, hparse]
  simp only [Bool.not_true, Bool.false_eq_true, if_false]
  rw [if_neg hota]
  by_cases hrec : m.recovery_url = "" ∨ m.recovery_hash = "" ∨ m.recovery_len = 0
  · rw [if_pos hrec]
    by_cases hm : sha256_file env.hashFn (st.files (out_fn_of m.ota_url)) 0 = m.ota_hash
    · constructor <;> simp [download, set_progress, hm, hrec, out_fn_of_ne_empty]
    · have hm2 : ¬ m.ota_hash = sha256_file env.hashFn (st.files (out_fn_of m.ota_url)) 0 :=
        fun hh => hm hh.symm
      constructor <;> simp [download, set_progress, hm, hm2, hrec, out_fn_of_ne_empty]
  · rw [if_neg hrec]
    simp only [set_progress]
    by_cases hdev : sha256_file env.hashFn (st.files RECOVERY_DEV) (asSizeT m.recovery_len)
        = m.recovery_hash
    · by_cases hm : sha256_file env.hashFn (st.files (out_fn_of m.ota_url)) 0 = m.ota_hash
      · constructor <;> simp [download, set_progress, hdev, hm, hrec, out_fn_of_ne_empty]
      · have hm2 : ¬ m.ota_hash = sha256_file env.hashFn (st.files (out_fn_of m.ota_url)) 0 :=
          fun hh => hm hh.symm
        constructor <;> simp [download, set_progress, hdev, hm, hm2, hrec, out_fn_of_ne_empty]
    · by_cases hr : sha256_file env.hashFn (st.files (out_fn_of m.recovery_url)) 0
          = m.recovery_hash
      · by_cases hm : sha256_file env.hashFn (st.files (out_fn_of m.ota_url)) 0 = m.ota_hash
        · constructor <;>
            simp [download, set_progress, hdev, hr, hm, hrec, out_fn_of_ne_empty]
        · have hm2 : ¬ m.ota_hash = sha256_file env.hashFn (st.files (out_fn_of m.ota_url)) 0 :=
            fun hh => hm hh.symm
          constructor <;>
            simp [download, set_progress, hdev, hr, hm, hm2, hrec, out_fn_of_ne_empty]
      · have hr2 : ¬ m.recovery_hash
            = sha256_file env.hashFn (st.files (out_fn_of m.recovery_url)) 0 :=
          fun hh => hr hh.symm
        constructor <;>
          simp [download, set_progress, hdev, hr, hr2, hrec, out_fn_of_ne_empty]

theorem download_stage_dry_characterization_witness :
    ((download_stage envC3 st0 true).2 = true ↔
      ((¬(("" : String) = "" ∨ ("" : String) = "" ∨ (0 : Int) = 0)
          ∧ sha256_file envC3.hashFn (st0.files RECOVERY_DEV) (asSizeT 0) ≠ "")
        → ("" : String) = sha256_file envC3.hashFn (st0.files (out_fn_of "")) 0)
      ∧ ("h" : String) = sha256_file envC3.hashFn (st0.files (out_fn_of "u")) 0)
    ∧ (download_stage envC3 st0 true).1.netCalls = st0.netCalls + 1 :=
  download_stage_dry_characterization envC3 st0 ⟨"u", "h", "", "", 0⟩ rfl
    (by simp [envC3]) (by simp)

theorem download_stage_manifest_validation_witness :
    (download_stage envC4b st0 true).2 = false
    ∧ (download_stage envC4b st0 true).1.error_text = "failed to load update manifest"
    ∧ (download_stage envC4b st0 true).1.state = UpdState.ERROR :=
  (download_stage_manifest_validation envC4b st0 true rfl).1 rfl

theorem sha256_file_limit_correct_witness :
    sha256_file (fun l => toString l.length) (some [1, 2, 3]) 2
      = sha256_file (fun l => toString l.length) (some ([1, 2, 3].take 2)) 0
    ∧ (hashLoop ((2 : Nat) != 0) [1, 2, 3] 2 []).length ≤ 2
    ∧ sha256_file (fun l => toString l.length) none 2 = "" :=
  sha256_file_limit_correct (fun l => toString l.length) [1, 2, 3] 2 (by norm_num)

theorem download_error_reporting_witness :
    (download envC6 st0 "u" "h" "update" false).2 = ""
    ∧ (download envC6 st0 "u" "h" "update" false).1.error_text
        = "failed to download " ++ "update"
    ∧ (download envC6 st0 "u" "h" "update" false).1.state = UpdState.ERROR
    ∧ (download envC6 st0 "u" "h" "update" false).1.files (out_fn_of "u") = none :=
  (download_error_reporting envC6 st0 "u" "h" "update"
    (by simp [envC6, st0, sha256_file_some_zero])).1 rfl

end Updater2Proof
